import Mathlib

/-
Verification of the Bayes classifier sieve plugin
(`crates/smtp/src/scripts/plugins/bayes.rs`).

The plugin exposes three host-callable operations — train, untrain and
classify — over a token-weight store.  The file embeds the plugin logic
shallowly: the plugin functions `train` and `exec_classify` and the
`LookupOrInsert::get_or_update` cache protocol are translated from the
source; the external collaborators that are not part of this repository
slice (the `nlp` crate's tokenizer/model/cache, the `directory` crate's
lookup store, the classifier kernel) are modelled from the specification
and clearly marked as such.  Store I/O failures are injected through a
per-key `fail` oracle; every store call is recorded in a trace so that
claims about which operations are issued can be stated.
-/

set_option maxHeartbeats 1000000

namespace BayesPlugin

/-- Token fingerprint of 128 bits with two 64-bit halves, mirroring
`nlp::bayes::TokenHash`. -/
structure TokenHash where
  h1 : Nat
  h2 : Nat
deriving DecidableEq

/-- The reserved corpus-totals sentinel `TokenHash::default()` (both halves
zero), as used at bayes.rs:128 and bayes.rs:159. -/
def TokenHash.default : TokenHash := ⟨0, 0⟩

/-- Spam/ham counter pair, mirroring `nlp::bayes::Weights` (u32 counters). -/
structure Weights where
  spam : Nat
  ham : Nat
deriving DecidableEq

/-- Default weights `Weights::default()`: both counters zero. -/
def Weights.default : Weights := ⟨0, 0⟩

/-- Modelled from the spec: cache entry states of the `nlp` crate's
`BayesTokenCache` (spec §3/§4.1, the crate is outside this repository
slice) — `unknown` (not cached), `present` (positive entry), `absent`
(negative entry). -/
inductive CacheEntry
  | unknown
  | present (w : Weights)
  | absent
deriving DecidableEq

/-- The shared token cache as a total map from hashes to entry states. -/
abbrev CacheMap := TokenHash → CacheEntry

/-- Modelled from the spec: `BayesTokenCache::invalidate` drops the entry
back to `unknown` (spec §4.1). -/
def invalidate (c : CacheMap) (k : TokenHash) : CacheMap :=
  fun k' => if k' = k then .unknown else c k'

/-- Modelled from the spec: `BayesTokenCache::insert_positive` (spec §4.1). -/
def insert_positive (c : CacheMap) (k : TokenHash) (w : Weights) : CacheMap :=
  fun k' => if k' = k then .present w else c k'

/-- Modelled from the spec: `BayesTokenCache::insert_negative` (spec §4.1). -/
def insert_negative (c : CacheMap) (k : TokenHash) : CacheMap :=
  fun k' => if k' = k then .absent else c k'

/-- A store row column as used here, mirroring `directory::DatabaseColumn`:
an integer or some non-integer column. -/
inductive DatabaseColumn
  | integer (i : Int)
  | other (s : String)
deriving DecidableEq

/-- A store row: a list of columns.  The empty row is a successful read
that found no row. -/
abbrev Row := List DatabaseColumn

/-- The first two columns when both are integers, exactly the pattern
destructured at bayes.rs:213-214. -/
def rowTwoInts : Row → Option (Int × Int)
  | .integer s :: .integer h :: _ => some (s, h)
  | _ => none

/-- Truncating cast from i64 to u32 (`spam as u32` at bayes.rs:216-217). -/
def u32cast (i : Int) : Nat := (i % (4294967296 : Int)).toNat

/-- Modelled from the spec: the backing store's rows under counter
semantics (spec §6, the `directory` crate is outside this repository
slice); each key carries its (spam, ham) counters, zero when never
written. -/
abbrev Store := TokenHash → Nat × Nat

/-- Modelled from the spec: saturating-at-zero application of one signed
delta to a counter (spec §6, `lookup`). -/
def satAdd (v : Nat) (d : Int) : Nat := ((v : Int) + d).toNat

/-- Modelled from the spec: the store's read-modify-write `lookup` applied
to key `k` with signed deltas `ds`, `dh` (spec §6). -/
def applyDelta (s : Store) (k : TokenHash) (ds dh : Int) : Store :=
  fun k' => if k' = k then (satAdd (s k).1 ds, satAdd (s k).2 dh) else s k'

/-- Plugin-visible shared state: the backing store and the token cache. -/
structure PState where
  store : Store
  cache : CacheMap

/-- One recorded store call: `rmw` is `Lookup::lookup` (read-modify-write),
`read` is `Lookup::query` (read-only), each with the column values
passed. -/
inductive StoreOp
  | rmw (cols : List Int)
  | read (cols : List Int)
deriving DecidableEq

/-- Modelled from the spec: a successful `query [h1, h2]` renders the
key's counters as a two-integer row (spec §6); an injected I/O failure
returns `none`. -/
def storeQuery (fail : TokenHash → Bool) (s : Store) (k : TokenHash) : Option Row :=
  if fail k then none
  else some [.integer ((s k).1 : Int), .integer ((s k).2 : Int)]

/-- The body of `LookupOrInsert::get_or_update` (bayes.rs:200-232) as a
function of the cache state and the raw outcome of the store query
(`none` = I/O failure, `some row` = successful read; a row that does not
start with two integer columns — in particular the empty row of a read
that found nothing — takes the negative-caching branch). -/
def get_or_update_with (c : CacheMap) (k : TokenHash) (q : Option Row) :
    Option Weights × CacheMap :=
  match c k with
  | .present w => (some w, c)
  | .absent => (some Weights.default, c)
  | .unknown =>
    match q with
    | some row =>
      match rowTwoInts row with
      | some (s, h) =>
        (some ⟨u32cast s, u32cast h⟩, insert_positive c k ⟨u32cast s, u32cast h⟩)
      | none => (some Weights.default, insert_negative c k)
    | none => (none, c)

/-- Function `get_or_update` against the live store: a read is issued (and traced)
only when the cache entry is `unknown` (bayes.rs:207-210). -/
def get_or_update (fail : TokenHash → Bool) (st : PState) (k : TokenHash) :
    Option Weights × PState × List StoreOp :=
  match st.cache k with
  | .unknown =>
    let r := get_or_update_with st.cache k (storeQuery fail st.store k)
    (r.1, ⟨st.store, r.2⟩, [.read [(k.h1 : Int), (k.h2 : Int)]])
  | .present w => (some w, st, [])
  | .absent => (some Weights.default, st, [])

/-- An OSB token as emitted by the `OsbTokenizer` pipeline: token hash plus
window index. -/
structure OsbTok where
  inner : TokenHash
  idx : Nat
deriving DecidableEq

/-- Modelled from the spec: the per-call `BayesModel` delta map (spec §3),
represented as an association list in first-insertion order. -/
structure BayesModel where
  weights : List (TokenHash × Weights)
deriving DecidableEq

/-- Modelled from the spec: one step of `BayesModel::train` (spec §4.2
step 3) — bump the document label's counter for one emitted hash,
accumulating duplicates. -/
def addToken : List (TokenHash × Weights) → TokenHash → Bool → List (TokenHash × Weights)
  | [], k, isSpam => [(k, if isSpam then ⟨1, 0⟩ else ⟨0, 1⟩)]
  | e :: rest, k, isSpam =>
    if e.1 = k then
      (e.1, if isSpam then ⟨e.2.spam + 1, e.2.ham⟩ else ⟨e.2.spam, e.2.ham + 1⟩) :: rest
    else e :: addToken rest k isSpam

/-- Modelled from the spec: `BayesModel::train` folds the emitted OSB token
stream into the delta map (spec §4.2 step 3). -/
def BayesModel.train (toks : List OsbTok) (isSpam : Bool) : BayesModel :=
  ⟨toks.foldl (fun m t => addToken m t.inner isSpam) []⟩

/-- Signed per-token deltas: the model's counters on train, their negation
on untrain (bayes.rs:91-95). -/
def entryDelta (isTrain : Bool) (w : Weights) : Int × Int :=
  if isTrain then ((w.spam : Int), (w.ham : Int))
  else (-(w.spam : Int), -(w.ham : Int))

/-- The four-column argument list of the per-token read-modify-write
(bayes.rs:97-102). -/
def rmwCols (isTrain : Bool) (e : TokenHash × Weights) : List Int :=
  [(e.1.h1 : Int), (e.1.h2 : Int), (entryDelta isTrain e.2).1, (entryDelta isTrain e.2).2]

/-- The per-token update loop of `train` (bayes.rs:90-108): issue the
delta via `Lookup::lookup`, abort on failure, invalidate the cache entry on
success. -/
def trainLoop (fail : TokenHash → Bool) (isTrain : Bool) :
    List (TokenHash × Weights) → PState → Bool × PState × List StoreOp
  | [], st => (true, st, [])
  | e :: rest, st =>
    if fail e.1 then (false, st, [.rmw (rmwCols isTrain e)])
    else
      let st' : PState :=
        ⟨applyDelta st.store e.1 (entryDelta isTrain e.2).1 (entryDelta isTrain e.2).2,
         invalidate st.cache e.1⟩
      let r := trainLoop fail isTrain rest st'
      (r.1, r.2.1, .rmw (rmwCols isTrain e) :: r.2.2)

/-- Result of a train/untrain call: the returned boolean, the final shared
state, the trace of store calls issued, and the number of WARN records
emitted. -/
structure TrainOut where
  ok : Bool
  st : PState
  trace : List StoreOp
  warns : Nat

/-- The `train` entry point (bayes.rs:56-131), shared by `bayes_train`
(`isTrain = true`) and `bayes_untrain` (`isTrain = false`).  The external
pipeline `OSB(BaseTokenize(text, psl), 5)` is abstracted as `tokenize`;
`registry` abstracts membership in `ctx.core.sieve.lookup`; `fail` injects
per-key store I/O failures.  Note that bayes.rs:117-123 issues the
read-only `Lookup::query` (a `read` op, leaving the store unchanged) for
the totals row, not the read-modify-write `Lookup::lookup`. -/
def train (registry : String → Bool) (tokenize : String → List OsbTok)
    (fail : TokenHash → Bool) (lookupId text : String) (isSpam isTrain : Bool)
    (st : PState) : TrainOut :=
  if registry lookupId then
    if text = "" then ⟨false, st, [], 0⟩
    else
      let model := BayesModel.train (tokenize text) isSpam
      if model.weights.isEmpty then ⟨false, st, [], 0⟩
      else
        let r := trainLoop fail isTrain model.weights st
        if r.1 then
          let trainVal : Int := if isTrain then 1 else -1
          let sc : Int := if isSpam then trainVal else 0
          let hc : Int := if isSpam then 0 else trainVal
          if fail TokenHash.default then
            ⟨false, r.2.1, r.2.2 ++ [.read [0, 0, sc, hc]], 0⟩
          else
            ⟨true, ⟨(r.2.1).store, invalidate (r.2.1).cache TokenHash.default⟩,
             r.2.2 ++ [.read [0, 0, sc, hc]], 0⟩
        else ⟨false, r.2.1, r.2.2, 0⟩
  else ⟨false, st, [], 1⟩

/-- An OSB token with its weights resolved through the cache, as fed to
the classifier kernel (`OsbToken { inner: Weights, idx }`). -/
structure WTok where
  inner : Weights
  idx : Nat
deriving DecidableEq

/-- The `filter_map` over the token stream (bayes.rs:175-183): resolve each
token's weights through the cache, dropping tokens whose resolution
fails. -/
def resolveTokens (fail : TokenHash → Bool) :
    PState → List OsbTok → List WTok × PState × List StoreOp
  | st, [] => ([], st, [])
  | st, t :: ts =>
    let g := get_or_update fail st t.inner
    let r := resolveTokens fail g.2.1 ts
    match g.1 with
    | some w => (⟨w, t.idx⟩ :: r.1, r.2.1, g.2.2 ++ r.2.2)
    | none => (r.1, r.2.1, g.2.2 ++ r.2.2)

/-- Result of a classify call: the returned probability (`none` is the
host's absent value `Variable::default()`), the final shared state, the
trace of store calls, the number of WARN records, and the arguments the
classifier kernel was invoked with (`none` when the kernel was never
reached). -/
structure ClassifyOut where
  out : Option Rat
  st : PState
  trace : List StoreOp
  warns : Nat
  kernelInput : Option (List WTok × Nat × Nat)

/-- The `exec_classify` entry point (bayes.rs:133-189).  `kernel` abstracts
the external `BayesClassifier::classify` with its source argument order
(resolved tokens, ham_learns, spam_learns); `minLearns` is
`ctx.bayes_classify.min_learns`. -/
def exec_classify (registry : String → Bool) (tokenize : String → List OsbTok)
    (kernel : List WTok → Nat → Nat → Option Rat) (fail : TokenHash → Bool)
    (minLearns : Nat) (lookupId text : String) (st : PState) : ClassifyOut :=
  if registry lookupId then
    if text = "" then ⟨none, st, [], 0, none⟩
    else
      let g := get_or_update fail st TokenHash.default
      match g.1 with
      | none => ⟨none, g.2.1, g.2.2, 0, none⟩
      | some tw =>
        if tw.spam < minLearns ∨ tw.ham < minLearns then ⟨none, g.2.1, g.2.2, 0, none⟩
        else
          let r := resolveTokens fail g.2.1 (tokenize text)
          ⟨kernel r.1 tw.ham tw.spam, r.2.1, g.2.2 ++ r.2.2, 0,
           some (r.1, tw.ham, tw.spam)⟩
  else ⟨none, st, [], 1, none⟩

/-! ## Concrete fixtures used by closed theorems and witnesses -/

/-- A registry holding exactly the lookup id `"spamdb"`. -/
def reg0 : String → Bool := fun s => s == "spamdb"

/-- A tokenizer emitting one OSB token with hash `(7, 9)`. -/
def tok1 : String → List OsbTok := fun _ => [⟨⟨7, 9⟩, 0⟩]

/-- A tokenizer emitting two OSB tokens with hashes `(3, 4)` and `(5, 6)`. -/
def tok2 : String → List OsbTok := fun _ => [⟨⟨3, 4⟩, 0⟩, ⟨⟨5, 6⟩, 1⟩]

/-- The empty initial state: zero counters everywhere, nothing cached. -/
def st0 : PState := ⟨fun _ => (0, 0), fun _ => .unknown⟩

/-- The failure-free store oracle. -/
def noFail : TokenHash → Bool := fun _ => false

/-- A failure oracle that fails exactly the totals key. -/
def failTot : TokenHash → Bool := fun k => decide (k = TokenHash.default)

/-- A failure oracle that fails exactly the token key `(3, 4)` — a proper
non-empty subset of the keys emitted by `tok2`. -/
def failTok34 : TokenHash → Bool := fun k => decide (k = ⟨3, 4⟩)

/-- A classifier kernel that always answers probability 1. -/
def kern1 : List WTok → Nat → Nat → Option Rat := fun _ _ _ => some 1

/-- A state whose cache holds a negative entry for every key. -/
def stAbs : PState := ⟨fun _ => (0, 0), fun _ => .absent⟩

/-- A failure oracle that fails exactly the token key `(5, 6)`, the second
key emitted by `tok2`. -/
def fail56 : TokenHash → Bool := fun k => decide (k = ⟨5, 6⟩)

/-! ## Derived descriptions of the training loop's effects -/

/-- Cumulative store effect of a run of successful per-token updates. -/
def applyEntries (isTrain : Bool) (entries : List (TokenHash × Weights)) (s : Store) :
    Store :=
  entries.foldl
    (fun acc e => applyDelta acc e.1 (entryDelta isTrain e.2).1 (entryDelta isTrain e.2).2) s

/-- Cumulative cache effect of a run of successful per-token updates. -/
def invalidateList (entries : List (TokenHash × Weights)) (c : CacheMap) : CacheMap :=
  entries.foldl (fun acc e => invalidate acc e.1) c

/-- Negation of the two delta columns of a four-column argument list. -/
def negCols : List Int → List Int
  | [a, b, c, d] => [a, b, -c, -d]
  | l => l

/-- Negation of the deltas carried by a traced store call. -/
def negOp : StoreOp → StoreOp
  | .rmw cols => .rmw (negCols cols)
  | .read cols => .read (negCols cols)

/-- The signed deltas an entry run applies to one fixed key. -/
def deltasAt (isTrain : Bool) (k : TokenHash) (entries : List (TokenHash × Weights)) :
    List (Int × Int) :=
  entries.filterMap (fun e => if e.1 = k then some (entryDelta isTrain e.2) else none)

/-- The raw counter pairs an entry run carries for one fixed key. -/
def wpairsAt (k : TokenHash) (entries : List (TokenHash × Weights)) : List (Nat × Nat) :=
  entries.filterMap (fun e => if e.1 = k then some (e.2.spam, e.2.ham) else none)

/-- Saturating application of a delta list to one counter pair. -/
def applyDeltas1 (v : Nat × Nat) (ds : List (Int × Int)) : Nat × Nat :=
  ds.foldl (fun v d => (satAdd v.1 d.1, satAdd v.2 d.2)) v

/-- Saturating application of a delta list to one scalar counter. -/
def applySc (v : Nat) (ds : List Int) : Nat := ds.foldl satAdd v

/-! ## Helper lemmas: cache effects of the training loop -/

theorem invalidate_unknown (c : CacheMap) (k0 k : TokenHash) (h : c k = .unknown) :
    invalidate c k0 k = .unknown := by
  by_cases hk : k = k0 <;> simp [invalidate, hk, h]

theorem invalidate_self (c : CacheMap) (k : TokenHash) : invalidate c k k = .unknown := by
  simp [invalidate]

theorem trainLoop_cache_unknown (fail : TokenHash → Bool) (b : Bool)
    (entries : List (TokenHash × Weights)) :
    ∀ (st : PState) (k : TokenHash), st.cache k = .unknown →
      ((trainLoop fail b entries st).2.1).cache k = .unknown := by
  induction entries with
  | nil => intro st k h; simpa [trainLoop] using h
  | cons e rest ih =>
    intro st k h
    by_cases hf : fail e.1
    · simpa [trainLoop, hf] using h
    · simp only [trainLoop, hf, Bool.false_eq_true, if_false, if_neg]
      exact ih _ k (invalidate_unknown _ _ _ h)

theorem trainLoop_mem_unknown (fail : TokenHash → Bool) (b : Bool)
    (entries : List (TokenHash × Weights)) :
    ∀ (st : PState) (k : TokenHash) (w : Weights),
      (trainLoop fail b entries st).1 = true → (k, w) ∈ entries →
      ((trainLoop fail b entries st).2.1).cache k = .unknown := by
  induction entries with
  | nil => intro st k w _ hmem; simp at hmem
  | cons e rest ih =>
    intro st k w hok hmem
    by_cases hf : fail e.1
    · simp [trainLoop, hf] at hok
    · simp only [trainLoop, hf, Bool.false_eq_true, if_false, if_neg] at hok ⊢
      rcases List.mem_cons.mp hmem with he | hrest
      · have hkey : e.1 = k := by rw [← he]
        apply trainLoop_cache_unknown
        show invalidate _ e.1 k = .unknown
        rw [hkey]
        exact invalidate_self _ _
      · exact ih _ k w hok hrest

/-! ## Helper lemmas: keys of the token model -/

theorem mem_addToken_self (m : List (TokenHash × Weights)) (k : TokenHash) (b : Bool) :
    ∃ w, (k, w) ∈ addToken m k b := by
  induction m with
  | nil => exact ⟨if b then ⟨1, 0⟩ else ⟨0, 1⟩, by simp [addToken]⟩
  | cons e rest ih =>
    by_cases h : e.1 = k
    · refine ⟨if b then ⟨e.2.spam + 1, e.2.ham⟩ else ⟨e.2.spam, e.2.ham + 1⟩, ?_⟩
      simp only [addToken, if_pos h, h]
      exact List.mem_cons_self _ _
    · obtain ⟨w, hw⟩ := ih
      refine ⟨w, ?_⟩
      simp only [addToken, if_neg h]
      exact List.mem_cons.mpr (Or.inr hw)

theorem mem_addToken_preserve (m : List (TokenHash × Weights)) (k' : TokenHash)
    (b : Bool) (k : TokenHash) (w : Weights) (h : (k, w) ∈ m) :
    ∃ w', (k, w') ∈ addToken m k' b := by
  induction m with
  | nil => simp at h
  | cons e rest ih =>
    by_cases he : e.1 = k'
    · rcases List.mem_cons.mp h with h1 | h1
      · have hk : k = e.1 := by rw [← h1]
        refine ⟨if b then ⟨e.2.spam + 1, e.2.ham⟩ else ⟨e.2.spam, e.2.ham + 1⟩, ?_⟩
        simp only [addToken, if_pos he, hk]
        exact List.mem_cons_self _ _
      · refine ⟨w, ?_⟩
        simp only [addToken, if_pos he]
        exact List.mem_cons.mpr (Or.inr h1)
    · rcases List.mem_cons.mp h with h1 | h1
      · refine ⟨w, ?_⟩
        simp only [addToken, if_neg he]
        exact List.mem_cons.mpr (Or.inl h1)
      · obtain ⟨w', hw'⟩ := ih h1
        refine ⟨w', ?_⟩
        simp only [addToken, if_neg he]
        exact List.mem_cons.mpr (Or.inr hw')

theorem mem_model_train (b : Bool) (toks : List OsbTok) :
    ∀ (m : List (TokenHash × Weights)) (k : TokenHash),
      ((∃ w, (k, w) ∈ m) ∨ k ∈ toks.map OsbTok.inner) →
      ∃ w, (k, w) ∈ toks.foldl (fun m t => addToken m t.inner b) m := by
  induction toks with
  | nil =>
    intro m k h
    rcases h with h | h
    · simpa using h
    · simp at h
  | cons t rest ih =>
    intro m k h
    simp only [List.foldl_cons]
    apply ih
    rcases h with ⟨w, hw⟩ | hmem
    · exact Or.inl (mem_addToken_preserve m t.inner b k w hw)
    · rcases (by simpa using hmem : k = t.inner ∨ k ∈ rest.map OsbTok.inner) with rfl | h2
      · exact Or.inl (mem_addToken_self m t.inner b)
      · exact Or.inr h2

/-! ## Claim theorems -/

/-- C1: the claim says the corpus totals are updated by the same
read-modify-write operation (the four-column apply-delta `lookup`) used for
the per-token deltas.  The code instead issues the read-only `query`
(bayes.rs:117-123): on a successful spam train the trace ends with a
`read` op carrying the delta columns rather than an `rmw` op, the totals
row is left unchanged by the call, and train still returns true. -/
theorem C1_totals_update_is_readonly_query :
    (train reg0 tok1 noFail "spamdb" "x" true true st0).ok = true ∧
    (train reg0 tok1 noFail "spamdb" "x" true true st0).trace =
      [.rmw [7, 9, 1, 0], .read [0, 0, 1, 0]] ∧
    (train reg0 tok1 noFail "spamdb" "x" true true st0).st.store TokenHash.default =
      st0.store TokenHash.default := by
  refine ⟨by decide, by decide, by decide⟩

/-- C3: the get-or-fetch protocol of `get_or_update`: a `present` entry
answers from the cache, an `absent` entry answers the default weights, an
`unknown` entry issues exactly one store read whose outcome drives the
transition — a row starting with two integer columns inserts a positive
entry and returns it, a successful read with no row inserts a negative
entry and returns the default, and a failed read leaves the cache
untouched and returns `none`; `none` is returned only on an I/O
failure of an issued read. -/
theorem C3_get_or_fetch_protocol (st : PState) (fail : TokenHash → Bool)
    (k : TokenHash) (c : CacheMap) (q : Option Row) :
    (∀ w, st.cache k = .present w → get_or_update fail st k = (some w, st, [])) ∧
    (st.cache k = .absent →
      get_or_update fail st k = (some Weights.default, st, [])) ∧
    (st.cache k = .unknown →
      (get_or_update fail st k).2.2 = [StoreOp.read [(k.h1 : Int), (k.h2 : Int)]] ∧
      (get_or_update fail st k).1 =
        (get_or_update_with st.cache k (storeQuery fail st.store k)).1 ∧
      ((get_or_update fail st k).2.1).cache =
        (get_or_update_with st.cache k (storeQuery fail st.store k)).2 ∧
      ((get_or_update fail st k).2.1).store = st.store) ∧
    (c k = .unknown → ∀ s h rest,
      get_or_update_with c k (some (.integer s :: .integer h :: rest)) =
        (some ⟨u32cast s, u32cast h⟩, insert_positive c k ⟨u32cast s, u32cast h⟩)) ∧
    (c k = .unknown →
      get_or_update_with c k (some []) = (some Weights.default, insert_negative c k)) ∧
    (c k = .unknown → get_or_update_with c k none = (none, c)) ∧
    ((get_or_update_with c k q).1 = none → q = none ∧ c k = .unknown) := by
  refine ⟨?_, ?_, ?_, ?_, ?_, ?_, ?_⟩
  · intro w h; simp [get_or_update, h]
  · intro h; simp [get_or_update, h]
  · intro h; simp [get_or_update, h]
  · intro h s hh rest; simp [get_or_update_with, h, rowTwoInts]
  · intro h; simp [get_or_update_with, h, rowTwoInts]
  · intro h; simp [get_or_update_with, h]
  · cases hc : c k <;> simp [get_or_update_with, hc]
    cases q with
    | none => simp
    | some row =>
      cases hrow : rowTwoInts row <;> simp [hrow]

/-- C3 witness: the protocol at concrete caches, keys and query results. -/
theorem C3_get_or_fetch_protocol_witness :
    get_or_update noFail ⟨fun _ => (0, 0), fun _ => .present ⟨2, 3⟩⟩ ⟨1, 1⟩ =
      (some ⟨2, 3⟩, ⟨fun _ => (0, 0), fun _ => .present ⟨2, 3⟩⟩, []) ∧
    get_or_update noFail ⟨fun _ => (0, 0), fun _ => .absent⟩ ⟨1, 1⟩ =
      (some Weights.default, ⟨fun _ => (0, 0), fun _ => .absent⟩, []) ∧
    (get_or_update noFail st0 ⟨1, 1⟩).2.2 = [StoreOp.read [1, 1]] ∧
    get_or_update_with (fun _ => .unknown) ⟨1, 1⟩
        (some [.integer 2, .integer 3]) =
      (some ⟨u32cast 2, u32cast 3⟩,
        insert_positive (fun _ => .unknown) ⟨1, 1⟩ ⟨u32cast 2, u32cast 3⟩) ∧
    get_or_update_with (fun _ => .unknown) ⟨1, 1⟩ (some []) =
      (some Weights.default, insert_negative (fun _ => .unknown) ⟨1, 1⟩) ∧
    get_or_update_with (fun _ => .unknown) ⟨1, 1⟩ none =
      (none, (fun _ => .unknown : CacheMap)) := by
  refine ⟨?_, ?_, ?_, ?_, ?_, ?_⟩
  · exact (C3_get_or_fetch_protocol _ noFail ⟨1, 1⟩ (fun _ => .unknown) none).1 ⟨2, 3⟩ rfl
  · exact (C3_get_or_fetch_protocol _ noFail ⟨1, 1⟩ (fun _ => .unknown) none).2.1 rfl
  · exact ((C3_get_or_fetch_protocol st0 noFail ⟨1, 1⟩ (fun _ => .unknown) none).2.2.1 rfl).1
  · exact (C3_get_or_fetch_protocol st0 noFail ⟨1, 1⟩ (fun _ => .unknown)
      none).2.2.2.1 rfl 2 3 []
  · exact (C3_get_or_fetch_protocol st0 noFail ⟨1, 1⟩ (fun _ => .unknown)
      none).2.2.2.2.1 rfl
  · exact (C3_get_or_fetch_protocol st0 noFail ⟨1, 1⟩ (fun _ => .unknown)
      none).2.2.2.2.2.1 rfl

/-- C8: with empty document text, train and untrain return false and
classify returns absent, and when the tokenizer produces an empty token
model train and untrain return false — in all cases without issuing any
store operation and leaving the shared state untouched. -/
theorem C8_empty_input (registry : String → Bool) (tokenize : String → List OsbTok)
    (kernel : List WTok → Nat → Nat → Option Rat) (fail : TokenHash → Bool)
    (minLearns : Nat) (lookupId text : String) (isSpam isTrain : Bool) (st : PState) :
    (text = "" →
      (train registry tokenize fail lookupId text isSpam isTrain st).ok = false ∧
      (train registry tokenize fail lookupId text isSpam isTrain st).trace = [] ∧
      (train registry tokenize fail lookupId text isSpam isTrain st).st = st) ∧
    (tokenize text = [] →
      (train registry tokenize fail lookupId text isSpam isTrain st).ok = false ∧
      (train registry tokenize fail lookupId text isSpam isTrain st).trace = [] ∧
      (train registry tokenize fail lookupId text isSpam isTrain st).st = st) ∧
    (text = "" →
      (exec_classify registry tokenize kernel fail minLearns lookupId text st).out = none ∧
      (exec_classify registry tokenize kernel fail minLearns lookupId text st).trace = [] ∧
      (exec_classify registry tokenize kernel fail minLearns lookupId text st).st = st) := by
  refine ⟨?_, ?_, ?_⟩
  · intro h
    by_cases hreg : registry lookupId <;> simp [train, hreg, h]
  · intro h
    by_cases hreg : registry lookupId <;> by_cases ht : text = "" <;>
      simp [train, hreg, ht, BayesModel.train, h]
  · intro h
    by_cases hreg : registry lookupId <;> simp [exec_classify, hreg, h]

/-- C8 witness: the empty-input behaviours at concrete calls. -/
theorem C8_empty_input_witness :
    ((train reg0 tok1 noFail "spamdb" "" true true st0).ok = false ∧
      (train reg0 tok1 noFail "spamdb" "" true true st0).trace = [] ∧
      (train reg0 tok1 noFail "spamdb" "" true true st0).st = st0) ∧
    ((train reg0 (fun _ => []) noFail "spamdb" "x" false false st0).ok = false ∧
      (train reg0 (fun _ => []) noFail "spamdb" "x" false false st0).trace = [] ∧
      (train reg0 (fun _ => []) noFail "spamdb" "x" false false st0).st = st0) ∧
    ((exec_classify reg0 tok1 (fun _ _ _ => some 1) noFail 0 "spamdb" "" st0).out = none ∧
      (exec_classify reg0 tok1 (fun _ _ _ => some 1) noFail 0 "spamdb" "" st0).trace = [] ∧
      (exec_classify reg0 tok1 (fun _ _ _ => some 1) noFail 0 "spamdb" "" st0).st = st0) := by
  refine ⟨(C8_empty_input reg0 tok1 (fun _ _ _ => some 1) noFail 0 "spamdb" ""
      true true st0).1 rfl,
    (C8_empty_input reg0 (fun _ => []) (fun _ _ _ => some 1) noFail 0 "spamdb" "x"
      false false st0).2.1 rfl,
    (C8_empty_input reg0 tok1 (fun _ _ _ => some 1) noFail 0 "spamdb" ""
      true true st0).2.2 rfl⟩

/-- C9: when the lookup id is not in the registry, train and untrain
return false and classify returns absent, each emitting exactly one WARN
record, issuing no store operation and leaving the shared state
untouched. -/
theorem C9_unknown_lookup (registry : String → Bool) (tokenize : String → List OsbTok)
    (kernel : List WTok → Nat → Nat → Option Rat) (fail : TokenHash → Bool)
    (minLearns : Nat) (lookupId text : String) (isSpam isTrain : Bool) (st : PState)
    (hreg : registry lookupId = false) :
    train registry tokenize fail lookupId text isSpam isTrain st = ⟨false, st, [], 1⟩ ∧
    exec_classify registry tokenize kernel fail minLearns lookupId text st =
      ⟨none, st, [], 1, none⟩ := by
  simp [train, exec_classify, hreg]

/-- C9 witness: the unknown-lookup behaviour at a concrete call. -/
theorem C9_unknown_lookup_witness :
    train reg0 tok1 noFail "otherdb" "x" true false st0 = ⟨false, st0, [], 1⟩ ∧
    exec_classify reg0 tok1 (fun _ _ _ => some 1) noFail 0 "otherdb" "x" st0 =
      ⟨none, st0, [], 1, none⟩ :=
  C9_unknown_lookup reg0 tok1 (fun _ _ _ => some 1) noFail 0 "otherdb" "x"
    true false st0 (by decide)

/-- C10: on an `unknown` cache entry, a successful store read whose row
does not begin with two integer columns is treated exactly like a read
that found no row: a negative cache entry is inserted and the default zero
weights are returned, with no error. -/
theorem C10_malformed_row_is_negative (c : CacheMap) (k : TokenHash) (row : Row)
    (hc : c k = .unknown) (hrow : rowTwoInts row = none) :
    get_or_update_with c k (some row) = (some Weights.default, insert_negative c k) ∧
    get_or_update_with c k (some row) = get_or_update_with c k (some []) := by
  have h0 : rowTwoInts ([] : Row) = none := rfl
  simp [get_or_update_with, hc, hrow, h0]

/-- C10 witness: a one-column row and a non-integer row at a concrete
unknown key. -/
theorem C10_malformed_row_is_negative_witness :
    (get_or_update_with (fun _ => .unknown) ⟨1, 2⟩ (some [.other "a"]) =
      (some Weights.default, insert_negative (fun _ => .unknown) ⟨1, 2⟩) ∧
     get_or_update_with (fun _ => .unknown) ⟨1, 2⟩ (some [.other "a"]) =
      get_or_update_with (fun _ => .unknown) ⟨1, 2⟩ (some [])) ∧
    (get_or_update_with (fun _ => .unknown) ⟨1, 2⟩ (some [.integer 5]) =
      (some Weights.default, insert_negative (fun _ => .unknown) ⟨1, 2⟩) ∧
     get_or_update_with (fun _ => .unknown) ⟨1, 2⟩ (some [.integer 5]) =
      get_or_update_with (fun _ => .unknown) ⟨1, 2⟩ (some [])) :=
  ⟨C10_malformed_row_is_negative _ _ _ rfl rfl,
   C10_malformed_row_is_negative _ _ _ rfl rfl⟩

/-- C2: when the resolved corpus totals have `spam_learns < min_learns` or
`ham_learns < min_learns`, classify returns absent regardless of the text,
and whenever the classifier kernel is invoked its totals are at or above
the configured minimum on both axes. -/
theorem C2_min_learns_gate (registry : String → Bool) (tokenize : String → List OsbTok)
    (kernel : List WTok → Nat → Nat → Option Rat) (fail : TokenHash → Bool)
    (minLearns : Nat) (lookupId text : String) (st : PState) (tw : Weights) :
    (registry lookupId = true → text ≠ "" →
      (get_or_update fail st TokenHash.default).1 = some tw →
      (tw.spam < minLearns ∨ tw.ham < minLearns) →
      (exec_classify registry tokenize kernel fail minLearns lookupId text st).out = none ∧
      (exec_classify registry tokenize kernel fail minLearns lookupId text st).kernelInput =
        none) ∧
    (∀ input,
      (exec_classify registry tokenize kernel fail minLearns lookupId text st).kernelInput =
        some input →
      minLearns ≤ input.2.2 ∧ minLearns ≤ input.2.1) := by
  constructor
  · intro hreg htext hg hlt
    simp [exec_classify, hreg, htext, hg, hlt]
  · intro input hinput
    by_cases hreg : registry lookupId
    · by_cases htext : text = ""
      · simp [exec_classify, hreg, htext] at hinput
      · cases hg : (get_or_update fail st TokenHash.default).1 with
        | none => simp [exec_classify, hreg, htext, hg] at hinput
        | some tw' =>
          by_cases hlt : tw'.spam < minLearns ∨ tw'.ham < minLearns
          · simp [exec_classify, hreg, htext, hg, hlt] at hinput
          · simp [exec_classify, hreg, htext, hg, hlt] at hinput
            push_neg at hlt
            rw [← hinput]
            exact ⟨hlt.1, hlt.2⟩
    · simp [exec_classify, hreg] at hinput

/-- C2 witness: with an empty corpus and `min_learns = 5` the gate
withholds classification, and with `min_learns = 0` the kernel receives
totals at or above the minimum. -/
theorem C2_min_learns_gate_witness :
    ((exec_classify reg0 tok2 (fun _ _ _ => some 1) noFail 5 "spamdb" "x" st0).out = none ∧
     (exec_classify reg0 tok2 (fun _ _ _ => some 1) noFail 5 "spamdb" "x" st0).kernelInput =
       none) ∧
    ((0 : Nat) ≤ (([⟨Weights.default, 0⟩, ⟨Weights.default, 1⟩] : List WTok),
        (0 : Nat), (0 : Nat)).2.2 ∧
     (0 : Nat) ≤ (([⟨Weights.default, 0⟩, ⟨Weights.default, 1⟩] : List WTok),
        (0 : Nat), (0 : Nat)).2.1) := by
  refine ⟨(C2_min_learns_gate reg0 tok2 (fun _ _ _ => some 1) noFail 5 "spamdb" "x"
      st0 ⟨0, 0⟩).1 (by decide) (by decide) (by decide) (by decide), ?_⟩
  exact (C2_min_learns_gate reg0 tok2 (fun _ _ _ => some 1) noFail 0 "spamdb" "x"
      st0 ⟨0, 0⟩).2 _ (by decide)

/-- C4: a store I/O failure on the totals read makes classify return
absent; once the gate has passed, classify's answer is exactly the
kernel's verdict on the resolved token sequence, so per-token read
failures never short-circuit the call to absent — a failing token with
an unknown cache entry drops out of the sequence, while a token with a
negative (absent) cache entry is retained with zero weights. -/
theorem C4_classify_io_tolerance (registry : String → Bool)
    (tokenize : String → List OsbTok) (kernel : List WTok → Nat → Nat → Option Rat)
    (fail : TokenHash → Bool) (minLearns : Nat) (lookupId text : String)
    (st : PState) (tw : Weights) :
    (registry lookupId = true → text ≠ "" → fail TokenHash.default = true →
      st.cache TokenHash.default = .unknown →
      (exec_classify registry tokenize kernel fail minLearns lookupId text st).out = none ∧
      (exec_classify registry tokenize kernel fail minLearns lookupId text st).kernelInput =
        none) ∧
    (registry lookupId = true → text ≠ "" →
      (get_or_update fail st TokenHash.default).1 = some tw →
      ¬(tw.spam < minLearns ∨ tw.ham < minLearns) →
      (exec_classify registry tokenize kernel fail minLearns lookupId text st).out =
        kernel (resolveTokens fail (get_or_update fail st TokenHash.default).2.1
          (tokenize text)).1 tw.ham tw.spam) ∧
    (∀ (st' : PState) (t : OsbTok) (ts : List OsbTok),
      fail t.inner = true → st'.cache t.inner = .unknown →
      (resolveTokens fail st' (t :: ts)).1 = (resolveTokens fail st' ts).1) ∧
    (∀ (st' : PState) (t : OsbTok) (ts : List OsbTok),
      st'.cache t.inner = .absent →
      (resolveTokens fail st' (t :: ts)).1 =
        ⟨Weights.default, t.idx⟩ :: (resolveTokens fail st' ts).1) := by
  refine ⟨?_, ?_, ?_, ?_⟩
  · intro hreg htext hfail hcache
    simp [exec_classify, hreg, htext, get_or_update, hcache, storeQuery, hfail,
      get_or_update_with]
  · intro hreg htext hg hlt
    simp [exec_classify, hreg, htext, hg, hlt]
  · intro st' t ts hfail hcache
    obtain ⟨sto, cch⟩ := st'
    have hc : cch t.inner = .unknown := hcache
    simp [resolveTokens, get_or_update, hc, storeQuery, hfail, get_or_update_with]
  · intro st' t ts hcache
    obtain ⟨sto, cch⟩ := st'
    have hc : cch t.inner = .absent := hcache
    simp [resolveTokens, get_or_update, hc]

/-- C4 witness: totals-read failure yields absent; with one of two token
reads failing the call still returns the kernel's verdict; the failing
unknown token is dropped while an absent-cached token is retained with
zero weights. -/
theorem C4_classify_io_tolerance_witness :
    ((exec_classify reg0 tok2 kern1 failTot 0 "spamdb" "x" st0).out = none ∧
     (exec_classify reg0 tok2 kern1 failTot 0 "spamdb" "x" st0).kernelInput = none) ∧
    ((exec_classify reg0 tok2 kern1 failTok34 0 "spamdb" "x" st0).out =
      kern1 (resolveTokens failTok34 (get_or_update failTok34 st0 TokenHash.default).2.1
        (tok2 "x")).1 (⟨0, 0⟩ : Weights).ham (⟨0, 0⟩ : Weights).spam) ∧
    ((resolveTokens failTok34 st0 [⟨⟨3, 4⟩, 0⟩, ⟨⟨5, 6⟩, 1⟩]).1 =
      (resolveTokens failTok34 st0 [⟨⟨5, 6⟩, 1⟩]).1) ∧
    ((resolveTokens failTok34 stAbs [⟨⟨3, 4⟩, 0⟩, ⟨⟨5, 6⟩, 1⟩]).1 =
      ⟨Weights.default, (⟨⟨3, 4⟩, 0⟩ : OsbTok).idx⟩ ::
        (resolveTokens failTok34 stAbs [⟨⟨5, 6⟩, 1⟩]).1) :=
  ⟨(C4_classify_io_tolerance reg0 tok2 kern1 failTot 0 "spamdb" "x" st0 ⟨0, 0⟩).1
      (by decide) (by decide) (by decide) rfl,
   (C4_classify_io_tolerance reg0 tok2 kern1 failTok34 0 "spamdb" "x" st0 ⟨0, 0⟩).2.1
      (by decide) (by decide) (by decide) (by decide),
   (C4_classify_io_tolerance reg0 tok2 kern1 failTok34 0 "spamdb" "x" st0 ⟨0, 0⟩).2.2.1
      st0 ⟨⟨3, 4⟩, 0⟩ [⟨⟨5, 6⟩, 1⟩] (by decide) rfl,
   (C4_classify_io_tolerance reg0 tok2 kern1 failTok34 0 "spamdb" "x" st0 ⟨0, 0⟩).2.2.2
      stAbs ⟨⟨3, 4⟩, 0⟩ [⟨⟨5, 6⟩, 1⟩] rfl⟩

/-- C5: after a successful train or untrain call, the cache entry of every
token hash emitted by the tokenizer pipeline, and of the totals key, is in
the `unknown` state. -/
theorem C5_train_invalidates_cache (registry : String → Bool)
    (tokenize : String → List OsbTok) (fail : TokenHash → Bool)
    (lookupId text : String) (isSpam isTrain : Bool) (st : PState) (k : TokenHash)
    (hok : (train registry tokenize fail lookupId text isSpam isTrain st).ok = true)
    (hk : k ∈ (tokenize text).map OsbTok.inner ∨ k = TokenHash.default) :
    ((train registry tokenize fail lookupId text isSpam isTrain st).st).cache k =
      .unknown := by
  by_cases hreg : registry lookupId
  case neg => simp [train, hreg] at hok
  by_cases htext : text = ""
  case pos => simp [train, hreg, htext] at hok
  by_cases hmodel : (BayesModel.train (tokenize text) isSpam).weights.isEmpty
  case pos => simp [train, hreg, htext, hmodel] at hok
  by_cases hloop :
    (trainLoop fail isTrain (BayesModel.train (tokenize text) isSpam).weights st).1 = true
  case neg => simp [train, hreg, htext, hmodel, hloop] at hok
  by_cases hfd : fail TokenHash.default
  case pos => simp [train, hreg, htext, hmodel, hloop, hfd] at hok
  have hfinal : (train registry tokenize fail lookupId text isSpam isTrain st).st =
      ⟨((trainLoop fail isTrain (BayesModel.train (tokenize text) isSpam).weights
          st).2.1).store,
        invalidate ((trainLoop fail isTrain
          (BayesModel.train (tokenize text) isSpam).weights st).2.1).cache
          TokenHash.default⟩ := by
    simp [train, hreg, htext, hmodel, hloop, hfd]
  rw [hfinal]
  rcases hk with hk | rfl
  · obtain ⟨w, hw⟩ := mem_model_train isSpam (tokenize text) [] k (Or.inr hk)
    exact invalidate_unknown _ _ _
      (trainLoop_mem_unknown fail isTrain _ st k w hloop hw)
  · exact invalidate_self
      ((trainLoop fail isTrain (BayesModel.train (tokenize text) isSpam).weights
        st).2.1).cache TokenHash.default

/-- C5 witness: a concrete successful spam train leaves both an emitted
token hash and the totals key in the `unknown` cache state. -/
theorem C5_train_invalidates_cache_witness :
    (train reg0 tok2 noFail "spamdb" "x" true true st0).ok = true ∧
    ((train reg0 tok2 noFail "spamdb" "x" true true st0).st).cache ⟨3, 4⟩ = .unknown ∧
    ((train reg0 tok2 noFail "spamdb" "x" true true st0).st).cache TokenHash.default =
      .unknown :=
  ⟨by decide,
   C5_train_invalidates_cache reg0 tok2 noFail "spamdb" "x" true true st0 ⟨3, 4⟩
     (by decide) (Or.inl (by decide)),
   C5_train_invalidates_cache reg0 tok2 noFail "spamdb" "x" true true st0
     TokenHash.default (by decide) (Or.inr rfl)⟩

/-- A run of the training loop that succeeds on a prefix and then hits a
failing key stops right there: the result is failure, the trace holds the
prefix's ops plus the failing op, and only the prefix's effects are
applied. -/
theorem trainLoop_fail_first (fail : TokenHash → Bool) (b : Bool)
    (e : TokenHash × Weights) (post : List (TokenHash × Weights)) :
    ∀ (pre : List (TokenHash × Weights)) (st : PState),
      (∀ e' ∈ pre, fail e'.1 = false) → fail e.1 = true →
      trainLoop fail b (pre ++ e :: post) st =
        (false, ⟨applyEntries b pre st.store, invalidateList pre st.cache⟩,
          pre.map (fun e' => StoreOp.rmw (rmwCols b e')) ++ [.rmw (rmwCols b e)]) := by
  intro pre
  induction pre with
  | nil =>
    intro st hpre hfe
    simp [trainLoop, hfe, applyEntries, invalidateList]
  | cons p rest ih =>
    intro st hpre hfe
    have hp : fail p.1 = false := hpre p (List.mem_cons_self _ _)
    have hrest : ∀ e' ∈ rest, fail e'.1 = false :=
      fun e' he' => hpre e' (List.mem_cons.mpr (Or.inr he'))
    show trainLoop fail b (p :: (rest ++ e :: post)) st = _
    simp only [trainLoop, hp, Bool.false_eq_true, if_false]
    rw [ih _ hrest hfe]
    simp [applyEntries, invalidateList]

/-- C6: during train or untrain, when a per-token store update fails the
call returns false immediately — the trace is exactly the successful
prefix's read-modify-writes plus the failing one, no totals operation is
issued — and the prefix's deltas and cache invalidations are left in
place. -/
theorem C6_train_aborts_on_failure (registry : String → Bool)
    (tokenize : String → List OsbTok) (fail : TokenHash → Bool)
    (lookupId text : String) (isSpam isTrain : Bool) (st : PState)
    (pre post : List (TokenHash × Weights)) (e : TokenHash × Weights)
    (hreg : registry lookupId = true) (htext : text ≠ "")
    (hsplit : (BayesModel.train (tokenize text) isSpam).weights = pre ++ e :: post)
    (hpre : ∀ e' ∈ pre, fail e'.1 = false) (hfe : fail e.1 = true) :
    (train registry tokenize fail lookupId text isSpam isTrain st).ok = false ∧
    (train registry tokenize fail lookupId text isSpam isTrain st).trace =
      pre.map (fun e' => StoreOp.rmw (rmwCols isTrain e')) ++
        [.rmw (rmwCols isTrain e)] ∧
    (train registry tokenize fail lookupId text isSpam isTrain st).st.store =
      applyEntries isTrain pre st.store ∧
    (train registry tokenize fail lookupId text isSpam isTrain st).st.cache =
      invalidateList pre st.cache := by
  have hne : (BayesModel.train (tokenize text) isSpam).weights.isEmpty = false := by
    rw [hsplit]; simp
  have hloop := trainLoop_fail_first fail isTrain e post pre st hpre hfe
  rw [← hsplit] at hloop
  simp [train, hreg, htext, hne, hloop]

/-- C6 witness: with the second of two tokens failing, the concrete train
call fails, traces exactly two read-modify-writes and no totals read, and
keeps the first token's delta and invalidation. -/
theorem C6_train_aborts_on_failure_witness :
    (train reg0 tok2 fail56 "spamdb" "x" true true st0).ok = false ∧
    (train reg0 tok2 fail56 "spamdb" "x" true true st0).trace =
      ([(⟨3, 4⟩, ⟨1, 0⟩)] : List (TokenHash × Weights)).map
          (fun e' => StoreOp.rmw (rmwCols true e')) ++
        [.rmw (rmwCols true (⟨5, 6⟩, ⟨1, 0⟩))] ∧
    (train reg0 tok2 fail56 "spamdb" "x" true true st0).st.store =
      applyEntries true [(⟨3, 4⟩, ⟨1, 0⟩)] st0.store ∧
    (train reg0 tok2 fail56 "spamdb" "x" true true st0).st.cache =
      invalidateList [(⟨3, 4⟩, ⟨1, 0⟩)] st0.cache :=
  C6_train_aborts_on_failure reg0 tok2 fail56 "spamdb" "x" true true st0
    [(⟨3, 4⟩, ⟨1, 0⟩)] [] (⟨5, 6⟩, ⟨1, 0⟩)
    (by decide) (by decide) (by decide) (by decide) (by decide)

/-! ## Helper lemmas: failure-free training runs and delta cancellation -/

theorem trainLoop_noFail (b : Bool) (entries : List (TokenHash × Weights)) :
    ∀ st : PState, trainLoop noFail b entries st =
      (true, ⟨applyEntries b entries st.store, invalidateList entries st.cache⟩,
        entries.map (fun e => StoreOp.rmw (rmwCols b e))) := by
  induction entries with
  | nil => intro st; simp [trainLoop, applyEntries, invalidateList]
  | cons e rest ih =>
    intro st
    simp only [trainLoop, noFail, Bool.false_eq_true, if_false]
    rw [ih]
    simp [applyEntries, invalidateList]

theorem applyEntries_key (b : Bool) (entries : List (TokenHash × Weights)) :
    ∀ (s : Store) (k : TokenHash),
      applyEntries b entries s k = applyDeltas1 (s k) (deltasAt b k entries) := by
  induction entries with
  | nil => intro s k; rfl
  | cons e rest ih =>
    intro s k
    have hstep : applyEntries b (e :: rest) s k =
        applyDeltas1 ((applyDelta s e.1 (entryDelta b e.2).1 (entryDelta b e.2).2) k)
          (deltasAt b k rest) := by
      simp only [applyEntries, List.foldl_cons]
      exact ih _ k
    rw [hstep]
    by_cases h : e.1 = k
    · subst h
      simp [deltasAt, applyDelta, applyDeltas1, List.filterMap_cons, List.foldl_cons]
    · have h' : ¬ k = e.1 := fun hh => h hh.symm
      simp [deltasAt, applyDelta, List.filterMap_cons, h, h']

theorem deltasAt_true (k : TokenHash) (entries : List (TokenHash × Weights)) :
    deltasAt true k entries =
      (wpairsAt k entries).map (fun p => ((p.1 : Int), (p.2 : Int))) := by
  induction entries with
  | nil => rfl
  | cons e rest ih =>
    simp only [deltasAt, wpairsAt, List.filterMap_cons] at ih ⊢
    by_cases h : e.1 = k
    · simp only [if_pos h, List.map_cons]
      rw [ih]
      rfl
    · simp only [if_neg h]
      exact ih

theorem deltasAt_false (k : TokenHash) (entries : List (TokenHash × Weights)) :
    deltasAt false k entries =
      (wpairsAt k entries).map (fun p => (-(p.1 : Int), -(p.2 : Int))) := by
  induction entries with
  | nil => rfl
  | cons e rest ih =>
    simp only [deltasAt, wpairsAt, List.filterMap_cons] at ih ⊢
    by_cases h : e.1 = k
    · simp only [if_pos h, List.map_cons]
      rw [ih]
      rfl
    · simp only [if_neg h]
      exact ih

theorem applyDeltas1_comp (ds : List (Int × Int)) :
    ∀ v : Nat × Nat,
      applyDeltas1 v ds =
        (applySc v.1 (ds.map Prod.fst), applySc v.2 (ds.map Prod.snd)) := by
  induction ds with
  | nil => intro v; rfl
  | cons d rest ih =>
    intro v
    simp only [applyDeltas1, List.foldl_cons, List.map_cons, applySc]
    exact ih _

theorem applySc_add (ns : List Nat) : ∀ v : Nat,
    applySc v (ns.map (fun n : Nat => (n : Int))) = v + ns.sum := by
  induction ns with
  | nil => intro v; simp [applySc]
  | cons n rest ih =>
    intro v
    have hstep : applySc v ((n :: rest).map fun m : Nat => (m : Int)) =
        applySc (satAdd v (n : Int)) (rest.map fun m : Nat => (m : Int)) := rfl
    have h1 : satAdd v (n : Int) = v + n := by unfold satAdd; omega
    rw [hstep, h1, ih]
    rw [List.sum_cons]
    omega

theorem applySc_cancel (ns : List Nat) : ∀ v : Nat,
    applySc (v + ns.sum) (ns.map (fun n : Nat => -(n : Int))) = v := by
  induction ns with
  | nil => intro v; simp [applySc]
  | cons n rest ih =>
    intro v
    have hstep : applySc (v + (n :: rest).sum) ((n :: rest).map fun m : Nat => -(m : Int)) =
        applySc (satAdd (v + (n :: rest).sum) (-(n : Int)))
          (rest.map fun m : Nat => -(m : Int)) := rfl
    have h1 : satAdd (v + (n :: rest).sum) (-(n : Int)) = v + rest.sum := by
      rw [List.sum_cons]; unfold satAdd; omega
    rw [hstep, h1, ih]

theorem applySc_roundtrip (ns : List Nat) (v : Nat) :
    applySc (applySc v (ns.map (fun n : Nat => (n : Int)))) (ns.map (fun n : Nat => -(n : Int))) = v := by
  rw [applySc_add]
  exact applySc_cancel ns v

theorem store_roundtrip (entries : List (TokenHash × Weights)) (s : Store) (k : TokenHash) :
    applyEntries false entries (applyEntries true entries s) k = s k := by
  rw [applyEntries_key, applyEntries_key, deltasAt_true, deltasAt_false,
    applyDeltas1_comp, applyDeltas1_comp]
  have hf1 : ((wpairsAt k entries).map (fun p => ((p.1 : Int), (p.2 : Int)))).map Prod.fst =
      ((wpairsAt k entries).map Prod.fst).map (fun n : Nat => (n : Int)) := by
    rw [List.map_map, List.map_map]; simp [Function.comp]
  have hs1 : ((wpairsAt k entries).map (fun p => ((p.1 : Int), (p.2 : Int)))).map Prod.snd =
      ((wpairsAt k entries).map Prod.snd).map (fun n : Nat => (n : Int)) := by
    rw [List.map_map, List.map_map]; simp [Function.comp]
  have hf2 : ((wpairsAt k entries).map (fun p => (-(p.1 : Int), -(p.2 : Int)))).map Prod.fst =
      ((wpairsAt k entries).map Prod.fst).map (fun n : Nat => -(n : Int)) := by
    rw [List.map_map, List.map_map]; simp [Function.comp]
  have hs2 : ((wpairsAt k entries).map (fun p => (-(p.1 : Int), -(p.2 : Int)))).map Prod.snd =
      ((wpairsAt k entries).map Prod.snd).map (fun n : Nat => -(n : Int)) := by
    rw [List.map_map, List.map_map]; simp [Function.comp]
  rw [hf1, hs1, hf2, hs2]
  rw [Prod.ext_iff]
  exact ⟨applySc_roundtrip _ _, applySc_roundtrip _ _⟩

/-- Failure-free train/untrain runs to completion: full characterization of
the returned value, state and trace. -/
theorem train_noFail_eq (registry : String → Bool) (tokenize : String → List OsbTok)
    (lookupId text : String) (isSpam isTrain : Bool) (st : PState)
    (hreg : registry lookupId = true) (htext : ¬ text = "")
    (hne : (BayesModel.train (tokenize text) isSpam).weights.isEmpty = false) :
    train registry tokenize noFail lookupId text isSpam isTrain st =
      ⟨true,
        ⟨applyEntries isTrain (BayesModel.train (tokenize text) isSpam).weights st.store,
         invalidate (invalidateList (BayesModel.train (tokenize text) isSpam).weights
           st.cache) TokenHash.default⟩,
        ((BayesModel.train (tokenize text) isSpam).weights).map
            (fun e => StoreOp.rmw (rmwCols isTrain e)) ++
          [.read [0, 0, if isSpam then (if isTrain then 1 else -1) else 0,
            if isSpam then 0 else (if isTrain then 1 else -1)]],
        0⟩ := by
  simp [train, hreg, htext, hne, noFail, trainLoop_noFail]

theorem negOp_rmwCols (e : TokenHash × Weights) :
    negOp (StoreOp.rmw (rmwCols true e)) = .rmw (rmwCols false e) := by
  simp [negOp, rmwCols, negCols, entryDelta]

/-- C7: with all store operations succeeding, train followed by untrain on
the same text and label returns the store to its initial contents at every
key (the store saturates deltas at zero), the untrain run issues exactly
the negation of the train run's deltas for every aggregated token and for
the totals row, and a successful train is followed by a successful
untrain. -/
theorem C7_train_untrain_symmetry (registry : String → Bool)
    (tokenize : String → List OsbTok) (lookupId text : String) (isSpam : Bool)
    (st : PState) :
    (∀ k, ((train registry tokenize noFail lookupId text isSpam false
        (train registry tokenize noFail lookupId text isSpam true st).st).st).store k =
      st.store k) ∧
    (train registry tokenize noFail lookupId text isSpam false
        (train registry tokenize noFail lookupId text isSpam true st).st).trace =
      ((train registry tokenize noFail lookupId text isSpam true st).trace).map negOp ∧
    ((train registry tokenize noFail lookupId text isSpam true st).ok = true →
      (train registry tokenize noFail lookupId text isSpam false
        (train registry tokenize noFail lookupId text isSpam true st).st).ok = true) := by
  by_cases hreg : registry lookupId
  case neg => refine ⟨?_, ?_, ?_⟩ <;> simp [train, hreg]
  by_cases htext : text = ""
  case pos => refine ⟨?_, ?_, ?_⟩ <;> simp [train, hreg, htext]
  by_cases hne : (BayesModel.train (tokenize text) isSpam).weights.isEmpty
  case pos => refine ⟨?_, ?_, ?_⟩ <;> simp [train, hreg, htext, hne]
  case neg =>
    rw [Bool.not_eq_true] at hne
    rw [train_noFail_eq registry tokenize lookupId text isSpam true st hreg htext hne,
      train_noFail_eq registry tokenize lookupId text isSpam false _ hreg htext hne]
    refine ⟨?_, ?_, ?_⟩
    · intro k
      exact store_roundtrip _ _ k
    · show (BayesModel.train (tokenize text) isSpam).weights.map
          (fun e => StoreOp.rmw (rmwCols false e)) ++ _ = _
      rw [List.map_append, List.map_map]
      have hmap : List.map (fun e => StoreOp.rmw (rmwCols false e))
            (BayesModel.train (tokenize text) isSpam).weights =
          List.map (negOp ∘ fun e => StoreOp.rmw (rmwCols true e))
            (BayesModel.train (tokenize text) isSpam).weights := by
        exact List.map_inj_left.mpr (fun e _ => (negOp_rmwCols e).symm)
      rw [hmap]
      congr 1
      cases isSpam <;> simp [negOp, negCols]
    · intro _
      rfl

/-- C7 witness: train-then-untrain at a concrete spam text restores the
counters of an affected key, the untrain trace is the negated train trace,
and both calls succeed. -/
theorem C7_train_untrain_symmetry_witness :
    ((train reg0 tok2 noFail "spamdb" "x" true false
        (train reg0 tok2 noFail "spamdb" "x" true true st0).st).st).store ⟨3, 4⟩ =
      st0.store ⟨3, 4⟩ ∧
    (train reg0 tok2 noFail "spamdb" "x" true false
        (train reg0 tok2 noFail "spamdb" "x" true true st0).st).trace =
      ((train reg0 tok2 noFail "spamdb" "x" true true st0).trace).map negOp ∧
    (train reg0 tok2 noFail "spamdb" "x" true false
        (train reg0 tok2 noFail "spamdb" "x" true true st0).st).ok = true :=
  ⟨(C7_train_untrain_symmetry reg0 tok2 "spamdb" "x" true st0).1 ⟨3, 4⟩,
   (C7_train_untrain_symmetry reg0 tok2 "spamdb" "x" true st0).2.1,
   (C7_train_untrain_symmetry reg0 tok2 "spamdb" "x" true st0).2.2 (by decide)⟩

end BayesPlugin
